import Mathlib

/-!
Shallow embedding of the Edolog backend (`src/index.js` and the mongoose
models in `src/models/`) — a small spend/income tracker exposing create,
month-summary, sector listing, get-by-id and delete-by-id operations over a
document store, with a shared month-range helper.

Modelling conventions:
* JavaScript `Date` values constructed and compared by the code are local-time
  instants; the code only ever builds and compares them through their civil
  components (year, zero-based month, day, time of day), so a `Date` is
  embedded as the structure `JsDate` of those components, with milliseconds
  within the day collapsing hours/minutes/seconds/ms.  The instant order on
  `Date`s coincides with the lexicographic order on
  `(year * 12 + month0, day, msOfDay)` (calendar time is monotone in each
  component), which is how comparison is embedded.
* The Mongo document collections behind the `Spend` and `Income` models are
  embedded as `List Record`; `create` appends a freshly-identified document,
  `find` filters, `findById` / `findByIdAndDelete` locate by identifier.
* Amounts are JS numbers used additively; they are embedded as `Rat`
  (the float-precision caveat in the source's docs is out of scope here).
* Express plumbing (routing, JSON codecs, the try/catch mapping store
  failures to 500) is not part of any claim and is not modelled; each handler
  is a function from its parsed inputs and the current store to a response
  (and the updated store where it writes).
-/

namespace Edolog

/-- Embedding of a JavaScript `Date` in local time: civil year, zero-based
month (`0`–`11` once normalized), day of month, and milliseconds elapsed
since local midnight. -/
structure JsDate where
  year : Int
  month0 : Int
  day : Int
  msOfDay : Int
deriving DecidableEq, Repr

/-- Embedding of `new Date(y, m0, 1)` (the constructor call in
`getMonthRange`): JavaScript normalizes an out-of-range month argument by
carrying it into the year, i.e. it uses the floor-division decomposition of
`y * 12 + m0`; the day argument is `1` and the time of day is local
midnight, so no day-overflow normalization can occur. -/
def jsNewDate (y m0 : Int) : JsDate :=
  { year := (y * 12 + m0) / 12
    month0 := (y * 12 + m0) % 12
    day := 1
    msOfDay := 0 }

/-- Embedding of `d.setMonth(m)`: the month is replaced and normalized into
the year exactly as in `jsNewDate`, while day and time of day are kept.  (JS
would additionally carry an overflowing day-of-month into the next month;
the code only calls `setMonth` on day-1 dates, where no overflow occurs.) -/
def JsDate.setMonth (d : JsDate) (m : Int) : JsDate :=
  { year := (d.year * 12 + m) / 12
    month0 := (d.year * 12 + m) % 12
    day := d.day
    msOfDay := d.msOfDay }

/-- Embedding of `getMonthRange` from `src/index.js` on an already
split-and-numbered month argument: `some (year, month)` plays the role of a
provided `"YYYY-MM"` string split into its two numbers, `none` the omitted
argument (in which case the current date `now` supplies year and month).
Returns `{ start, end }`. -/
def getMonthRange (now : JsDate) (yyyymm : Option (Int × Int)) : JsDate × JsDate :=
  let start :=
    match yyyymm with
    | some (year, month) => jsNewDate year (month - 1)
    | none => jsNewDate now.year now.month0
  (start, start.setMonth (start.month0 + 1))

/-- Embedding of JavaScript `s.split("-")` on the character list of `s`:
the string is cut at every `'-'`, and `"".split("-")` is `[""]`. -/
def splitDash : List Char → List (List Char)
  | [] => [[]]
  | c :: rest =>
    if c = '-' then [] :: splitDash rest
    else
      match splitDash rest with
      | [] => [[c]]
      | piece :: pieces => (c :: piece) :: pieces

/-- Accumulator loop reading a run of decimal digits; any non-digit
character makes the whole string non-numeric. -/
def digitsToNat (acc : Nat) : List Char → Option Nat
  | [] => some acc
  | c :: cs => if c.isDigit then digitsToNat (acc * 10 + (c.toNat - 48)) cs else none

/-- Embedding of JavaScript `Number(s)` on the segments a month parameter is
split into: the empty string evaluates to `0` and a string of decimal digits
to its value; every other string is embedded as `none`, standing for `NaN`
(the exotic numeric syntaxes `Number` also accepts — signs, whitespace, hex,
fractions — do not occur in the inputs any claim quantifies over).  A `NaN`
month yields an Invalid Date in JS, likewise embedded as `none`
downstream. -/
def jsNumber (cs : List Char) : Option Int :=
  match cs with
  | [] => some 0
  | _ => (digitsToNat 0 cs).map Int.ofNat

/-- Embedding of `getMonthRange` on a provided month string: the source
computes `yyyymm.split("-").map(Number)` and destructures the first two
elements as year and month.  A `NaN` in either position would produce an
Invalid Date, embedded as `none`. -/
def getMonthRangeStr (now : JsDate) (yyyymm : String) : Option (JsDate × JsDate) :=
  match (splitDash yyyymm.data).map jsNumber with
  | some year :: some month :: _ => some (getMonthRange now (some (year, month)))
  | _ => none

/-- Instant order (`≤`) on embedded `Date`s: lexicographic on linearized
month, then day, then time of day. -/
def dateLe (a b : JsDate) : Bool :=
  decide (a.year * 12 + a.month0 < b.year * 12 + b.month0) ||
    (decide (a.year * 12 + a.month0 = b.year * 12 + b.month0) &&
      (decide (a.day < b.day) ||
        (decide (a.day = b.day) && decide (a.msOfDay ≤ b.msOfDay))))

/-- Strict instant order (`<`) on embedded `Date`s. -/
def dateLt (a b : JsDate) : Bool :=
  decide (a.year * 12 + a.month0 < b.year * 12 + b.month0) ||
    (decide (a.year * 12 + a.month0 = b.year * 12 + b.month0) &&
      (decide (a.day < b.day) ||
        (decide (a.day = b.day) && decide (a.msOfDay < b.msOfDay))))

/-- Embedding of the Mongo date filter `{ $gte: start, $lt: end }` used by
the summary and sector-listing queries. -/
def inRange (start en d : JsDate) : Bool :=
  dateLe start d && dateLt d en

/-- Persisted document of the `Spend` / `Income` mongoose models
(`src/models/spend.js`; the two schemas are structurally identical):
generated identifier, `name`, `sector`, `amount`, `note`, `date`.  The
system timestamps `createdAt` / `updatedAt` added by `{ timestamps: true }`
are not read by any handler and are omitted. -/
structure Record where
  id : Nat
  name : String
  sector : String
  amount : Rat
  note : String
  date : JsDate
deriving DecidableEq, Repr

/-- Provided `date` value of a create request body, abstracted to the
`JsDate` it denotes under the one-argument `new Date(value)` constructor
together with the JS truthiness of the raw JSON value.  For example the
JSON number `0` is `⟨epoch, true⟩` (it denotes `new Date(0)`, the epoch,
and is falsy), while a nonempty date string is `⟨its date, false⟩`. -/
structure DateInput where
  val : JsDate
  falsy : Bool
deriving DecidableEq, Repr

/-- Parsed JSON body of `POST /api/spends` / `POST /api/incomes`:
`{ name, sector, amount, note, date }`, each field possibly absent.
`name`, `sector`, `note` are text fields per the schema, `amount` numeric,
`date` a date-denoting value. -/
structure CreateBody where
  name : Option String
  sector : Option String
  amount : Option Rat
  note : Option String
  date : Option DateInput
deriving DecidableEq, Repr

/-- JS falsiness of an optional string field: absent (`undefined`) or the
empty string (the only falsy string). -/
def strFalsy : Option String → Bool
  | none => true
  | some s => s == ""

/-- Response of the create handlers: `400 { error: "name, sector, amount
required" }` or `201` with the created record. -/
inductive CreateResp where
  | validationError
  | created (rec : Record)
deriving DecidableEq, Repr

/-- Embedding of the `POST /api/spends` handler: reject with 400 when
`!name || !sector || amount == null`, otherwise insert a document built
from the body (note defaulting to `""`, date to `new Date()` when the given
value is omitted or falsy) and answer 201 with it.  `now` is the current
time `new Date()`, `newId` the identifier Mongo generates; the handler
returns the response together with the updated collection. -/
def postSpend (body : CreateBody) (now : JsDate) (newId : Nat) (db : List Record) :
    CreateResp × List Record :=
  if strFalsy body.name || strFalsy body.sector || body.amount.isNone then
    (CreateResp.validationError, db)
  else
    let doc : Record :=
      { id := newId
        name := body.name.getD ""
        sector := body.sector.getD ""
        amount := body.amount.getD 0
        note := body.note.getD ""
        date :=
          match body.date with
          | none => now
          | some d => if d.falsy then now else d.val }
    (CreateResp.created doc, db ++ [doc])

/-- Embedding of the `POST /api/incomes` handler; same body as `postSpend`
over the income collection. -/
def postIncome (body : CreateBody) (now : JsDate) (newId : Nat) (db : List Record) :
    CreateResp × List Record :=
  if strFalsy body.name || strFalsy body.sector || body.amount.isNone then
    (CreateResp.validationError, db)
  else
    let doc : Record :=
      { id := newId
        name := body.name.getD ""
        sector := body.sector.getD ""
        amount := body.amount.getD 0
        note := body.note.getD ""
        date :=
          match body.date with
          | none => now
          | some d => if d.falsy then now else d.val }
    (CreateResp.created doc, db ++ [doc])

/-- Entry of the summary's `bySector` array: `{ sector, amount }`. -/
structure SectorSum where
  sector : String
  amount : Rat
deriving DecidableEq, Repr

/-- JSON body of the summary response: `{ total, bySector }`. -/
structure SummaryResp where
  total : Rat
  bySector : List SectorSum
deriving DecidableEq, Repr

/-- Accumulation step of the Mongo `$group: { _id: "$sector", amount:
{ $sum: "$amount" } }` stage: add an amount into the group keyed by the
record's sector, creating the group if absent. -/
def addToGroups : List (String × Rat) → String → Rat → List (String × Rat)
  | [], s, a => [(s, a)]
  | g :: gs, s, a =>
    if g.1 = s then (g.1, g.2 + a) :: gs
    else g :: addToGroups gs s a

/-- Embedding of the `$group` stage over a list of (already `$match`-ed)
records: one `(sector, summed amount)` pair per distinct sector.  Mongo
does not guarantee any group order; first-appearance order is one
realization of it. -/
def groupBySector (rs : List Record) : List (String × Rat) :=
  rs.foldl (fun gs r => addToGroups gs r.sector r.amount) []

/-- Embedding of the `GET /api/spends/summary` handler: `$match` the
records whose date is in `[start, end)` for the requested month, `$group`
them by sector, then `total = result.reduce((sum, r) => sum + r.amount, 0)`
and `bySector = result.map(r => ({ sector: r._id, amount: r.amount }))`. -/
def spendSummary (db : List Record) (now : JsDate) (month : Option (Int × Int)) :
    SummaryResp :=
  let range := getMonthRange now month
  let result := groupBySector (db.filter fun r => inRange range.1 range.2 r.date)
  { total := result.foldl (fun sum r => sum + r.2) 0
    bySector := result.map fun r => { sector := r.1, amount := r.2 } }

/-- Embedding of the `GET /api/incomes/summary` handler; same body as
`spendSummary` over the income collection. -/
def incomeSummary (db : List Record) (now : JsDate) (month : Option (Int × Int)) :
    SummaryResp :=
  let range := getMonthRange now month
  let result := groupBySector (db.filter fun r => inRange range.1 range.2 r.date)
  { total := result.foldl (fun sum r => sum + r.2) 0
    bySector := result.map fun r => { sector := r.1, amount := r.2 } }

/-- Sort relation of `.sort({ date: -1 })`: `a` before `b` when `a`'s date
is at least `b`'s (descending by date; ties unordered). -/
def byDateDesc (a b : Record) : Prop :=
  dateLe b.date a.date = true

instance : DecidableRel byDateDesc := fun a b => by
  unfold byDateDesc; infer_instance

instance : IsTotal Record byDateDesc := by
  constructor
  intro a b
  simp only [byDateDesc, dateLe, Bool.or_eq_true, Bool.and_eq_true, decide_eq_true_eq]
  omega

instance : IsTrans Record byDateDesc := by
  constructor
  intro a b c hab hbc
  simp only [byDateDesc, dateLe, Bool.or_eq_true, Bool.and_eq_true, decide_eq_true_eq] at *
  omega

/-- Embedding of the `GET /api/sectors/:sector/spends` handler:
`Spend.find({ sector, date: { $gte: start, $lt: end } }).sort({ date: -1 })`
— the documents matching the exact sector and the month's date range,
sorted by date descending (realized by an insertion sort; Mongo fixes no
tie order).  Responds 200 with the list. -/
def sectorSpends (db : List Record) (now : JsDate) (sector : String)
    (month : Option (Int × Int)) : List Record :=
  let range := getMonthRange now month
  List.insertionSort byDateDesc
    (db.filter fun r => r.sector == sector && inRange range.1 range.2 r.date)

/-- Embedding of the `GET /api/incomes/by-sector/:sector` handler; same
body as `sectorSpends` over the income collection. -/
def sectorIncomes (db : List Record) (now : JsDate) (sector : String)
    (month : Option (Int × Int)) : List Record :=
  let range := getMonthRange now month
  List.insertionSort byDateDesc
    (db.filter fun r => r.sector == sector && inRange range.1 range.2 r.date)

/-- Response of the by-identifier handlers: `404 { error: "Not found" }`,
`200` with the record (get), or `200 { ok: true }` (delete). -/
inductive IdResp where
  | notFound
  | okRecord (rec : Record)
  | okAck
deriving DecidableEq, Repr

/-- Embedding of `Model.findById(id)` on the collection: the document with
that identifier, if any. -/
def findById (db : List Record) (i : Nat) : Option Record :=
  db.find? fun r => r.id == i

/-- Embedding of `Model.findByIdAndDelete(id)`: the deleted document (if
any) together with the collection after the deletion. -/
def findByIdAndDelete (db : List Record) (i : Nat) : Option Record × List Record :=
  match db.find? fun r => r.id == i with
  | none => (none, db)
  | some r => (some r, db.eraseP fun r => r.id == i)

/-- Embedding of the `GET /api/spends/:id` handler: 404 when no such
document, else 200 with it. -/
def getSpend (db : List Record) (i : Nat) : IdResp :=
  match findById db i with
  | none => IdResp.notFound
  | some r => IdResp.okRecord r

/-- Embedding of the `GET /api/incomes/:id` handler; same body as
`getSpend` over the income collection. -/
def getIncome (db : List Record) (i : Nat) : IdResp :=
  match findById db i with
  | none => IdResp.notFound
  | some r => IdResp.okRecord r

/-- Embedding of the `DELETE /api/spends/:id` handler: 404 (collection
unchanged) when no such document, else delete it and answer
`200 { ok: true }`; returns the response with the updated collection. -/
def deleteSpend (db : List Record) (i : Nat) : IdResp × List Record :=
  match findByIdAndDelete db i with
  | (none, db2) => (IdResp.notFound, db2)
  | (some _, db2) => (IdResp.okAck, db2)

/-- Embedding of the `DELETE /api/incomes/:id` handler; same body as
`deleteSpend` over the income collection. -/
def deleteIncome (db : List Record) (i : Nat) : IdResp × List Record :=
  match findByIdAndDelete db i with
  | (none, db2) => (IdResp.notFound, db2)
  | (some _, db2) => (IdResp.okAck, db2)

/-! Helper lemmas about the grouping aggregation. -/

theorem foldl_add_snd (l : List (String × Rat)) (c : Rat) :
    l.foldl (fun sum r => sum + r.2) c = c + (l.map Prod.snd).sum := by
  induction l generalizing c with
  | nil => simp
  | cons g gs ih => simp [ih, add_assoc]

theorem snd_sum_addToGroups (gs : List (String × Rat)) (s : String) (a : Rat) :
    ((addToGroups gs s a).map Prod.snd).sum = (gs.map Prod.snd).sum + a := by
  induction gs with
  | nil => simp [addToGroups]
  | cons g gs ih =>
    by_cases h : g.1 = s
    · simp only [addToGroups, if_pos h, List.map_cons, List.sum_cons]
      ring
    · simp only [addToGroups, if_neg h, List.map_cons, List.sum_cons, ih]
      ring

theorem snd_sum_groupBy_fold (rs : List Record) (gs : List (String × Rat)) :
    ((rs.foldl (fun gs r => addToGroups gs r.sector r.amount) gs).map Prod.snd).sum
      = (gs.map Prod.snd).sum + (rs.map Record.amount).sum := by
  induction rs generalizing gs with
  | nil => simp
  | cons r rs ih =>
    simp only [List.foldl_cons, ih, snd_sum_addToGroups, List.map_cons, List.sum_cons]
    ring

theorem snd_sum_groupBySector (rs : List Record) :
    ((groupBySector rs).map Prod.snd).sum = (rs.map Record.amount).sum := by
  simpa [groupBySector] using snd_sum_groupBy_fold rs []

/-- Claim C8: each Income operation (create, summary, sector listing,
get-by-id, delete-by-id) computes the same function of its inputs as the
corresponding Spend operation; the two handler families differ only in
which collection they read and write. -/
theorem income_handlers_equal_spend_handlers :
    postIncome = postSpend ∧ incomeSummary = spendSummary ∧
    sectorIncomes = sectorSpends ∧ getIncome = getSpend ∧
    deleteIncome = deleteSpend :=
  ⟨rfl, rfl, rfl, rfl, rfl⟩

/-- Claim C3: a create request in which name, sector, or amount is absent
answers 400 and performs no insert (the collection is returned
unchanged). -/
theorem create_absent_field_rejected (body : CreateBody) (now : JsDate)
    (newId : Nat) (db : List Record)
    (h : body.name = none ∨ body.sector = none ∨ body.amount = none) :
    postSpend body now newId db = (CreateResp.validationError, db) := by
  unfold postSpend
  rcases h with h | h | h <;> simp [strFalsy, h]

/-- Witness for C3 at a concrete request missing its amount. -/
theorem create_absent_field_rejected_witness :
    postSpend { name := some "Coffee", sector := some "Food", amount := none,
                note := none, date := none } ⟨2024, 0, 2, 0⟩ 1 []
      = (CreateResp.validationError, []) :=
  create_absent_field_rejected _ _ _ _ (Or.inr (Or.inr rfl))

/-- Claim C9: a create request in which name or sector is present but equal
to the empty string (falsy in JS) also answers 400 and persists nothing,
because `!name || !sector` tests falsiness rather than absence. -/
theorem create_empty_field_rejected (body : CreateBody) (now : JsDate)
    (newId : Nat) (db : List Record)
    (h : body.name = some "" ∨ body.sector = some "") :
    postSpend body now newId db = (CreateResp.validationError, db) := by
  unfold postSpend
  rcases h with h | h <;> simp [strFalsy, h]

/-- Witness for C9 at a concrete request whose sector is the empty
string. -/
theorem create_empty_field_rejected_witness :
    postSpend { name := some "Coffee", sector := some "", amount := some 4,
                note := none, date := none } ⟨2024, 0, 2, 0⟩ 1 []
      = (CreateResp.validationError, []) :=
  create_empty_field_rejected _ _ _ _ (Or.inr rfl)

/-- Claim C5: a create request with truthy name and sector and an amount
equal to zero or negative passes the `amount == null` presence check, is
persisted with that amount, and answers 201 with the created record. -/
theorem create_nonpositive_amount_accepted (body : CreateBody) (now : JsDate)
    (newId : Nat) (db : List Record) (n s : String) (a : Rat)
    (hn : body.name = some n) (hn2 : n ≠ "")
    (hs : body.sector = some s) (hs2 : s ≠ "")
    (ha : body.amount = some a) (ha2 : a ≤ 0) :
    ∃ doc : Record,
      postSpend body now newId db = (CreateResp.created doc, db ++ [doc]) ∧
      doc.amount = a := by
  unfold postSpend
  simp only [strFalsy, hn, hs, ha, Option.isNone_some, beq_iff_eq,
    Bool.or_false, Bool.or_eq_true, decide_eq_true_eq]
  rw [if_neg (by simp [hn2, hs2])]
  exact ⟨_, rfl, rfl⟩

/-- Witness for C5 at a concrete request with amount zero. -/
theorem create_nonpositive_amount_accepted_witness :
    ∃ doc : Record,
      postSpend { name := some "Coffee", sector := some "Food", amount := some 0,
                  note := none, date := none } ⟨2024, 0, 2, 0⟩ 1 []
        = (CreateResp.created doc, [] ++ [doc]) ∧
      doc.amount = 0 :=
  create_nonpositive_amount_accepted _ _ _ _ "Coffee" "Food" 0 rfl (by decide)
    rfl (by decide) rfl le_rfl

/-- Claim C2: for every month and store, the summary's total equals the sum
of the amounts of the records whose date lies in `[start, end)`, and
equally the sum of the per-sector group sums in `bySector`; with zero
matching records the total is `0` and `bySector` is empty. -/
theorem summary_total_correct (db : List Record) (now : JsDate)
    (month : Option (Int × Int)) :
    (spendSummary db now month).total
        = ((db.filter fun r =>
              inRange (getMonthRange now month).1 (getMonthRange now month).2
                r.date).map Record.amount).sum ∧
    (spendSummary db now month).total
        = ((spendSummary db now month).bySector.map SectorSum.amount).sum ∧
    ((db.filter fun r =>
        inRange (getMonthRange now month).1 (getMonthRange now month).2 r.date)
          = [] →
      (spendSummary db now month).total = 0 ∧
      (spendSummary db now month).bySector = []) := by
  refine ⟨?_, ?_, ?_⟩
  · simp only [spendSummary, foldl_add_snd, snd_sum_groupBySector, zero_add]
  · simp only [spendSummary, foldl_add_snd, zero_add, List.map_map]
    rfl
  · intro h
    simp [spendSummary, h, groupBySector]

/-- Witness for C2 at a concrete store and month. -/
theorem summary_total_correct_witness :
    (spendSummary [{ id := 1, name := "Coffee", sector := "Food", amount := 4,
                     note := "", date := ⟨2024, 1, 10, 0⟩ }] ⟨2024, 0, 2, 0⟩
        (some (2024, 2))).total
        = (([{ id := 1, name := "Coffee", sector := "Food", amount := 4,
               note := "", date := ⟨2024, 1, 10, 0⟩ }].filter
              fun r : Record =>
                inRange (getMonthRange ⟨2024, 0, 2, 0⟩ (some (2024, 2))).1
                  (getMonthRange ⟨2024, 0, 2, 0⟩ (some (2024, 2))).2 r.date).map
            Record.amount).sum :=
  (summary_total_correct _ _ _).1

/-- Claim C1: for a provided month string splitting into a year `y` and a
month `m` with `1 ≤ m ≤ 12`, `getMonthRange` returns a start that is day 1
of calendar month `m` of year `y` at local midnight, and an end that is day
1 at local midnight of the immediately following calendar month (December
rolling over into January of the next year). -/
theorem getMonthRange_valid_month (now : JsDate) (s : String) (y m : Int)
    (hp : (splitDash s.data).map jsNumber = [some y, some m])
    (h1 : 1 ≤ m) (h2 : m ≤ 12) :
    ∃ st en, getMonthRangeStr now s = some (st, en) ∧
      st.year = y ∧ st.month0 = m - 1 ∧ st.day = 1 ∧ st.msOfDay = 0 ∧
      en.day = 1 ∧ en.msOfDay = 0 ∧
      en.year * 12 + en.month0 = st.year * 12 + st.month0 + 1 ∧
      0 ≤ en.month0 ∧ en.month0 < 12 ∧
      (m ≤ 11 → en.year = y ∧ en.month0 = m) ∧
      (m = 12 → en.year = y + 1 ∧ en.month0 = 0) := by
  have hstr : getMonthRangeStr now s
      = some (getMonthRange now (some (y, m))) := by
    unfold getMonthRangeStr
    rw [hp]
  refine ⟨(getMonthRange now (some (y, m))).1,
    (getMonthRange now (some (y, m))).2, by rw [hstr], ?_⟩
  simp only [getMonthRange, jsNewDate, JsDate.setMonth, true_and, and_true]
  omega

/-- Witness for C1 at the month string `"2024-02"` of the leap year 2024:
the range runs from 2024-02-01 local midnight to 2024-03-01 local
midnight. -/
theorem getMonthRange_valid_month_witness :
    (∃ st en, getMonthRangeStr ⟨2024, 0, 2, 0⟩ "2024-02" = some (st, en) ∧
      st.year = 2024 ∧ st.month0 = (2 : Int) - 1 ∧ st.day = 1 ∧ st.msOfDay = 0 ∧
      en.day = 1 ∧ en.msOfDay = 0 ∧
      en.year * 12 + en.month0 = st.year * 12 + st.month0 + 1 ∧
      0 ≤ en.month0 ∧ en.month0 < 12 ∧
      ((2 : Int) ≤ 11 → en.year = 2024 ∧ en.month0 = 2) ∧
      ((2 : Int) = 12 → en.year = 2024 + 1 ∧ en.month0 = 0)) ∧
    getMonthRangeStr ⟨2024, 0, 2, 0⟩ "2024-02"
      = some (⟨2024, 1, 1, 0⟩, ⟨2024, 2, 1, 0⟩) :=
  ⟨getMonthRange_valid_month ⟨2024, 0, 2, 0⟩ "2024-02" 2024 2 (by decide)
      (by decide) (by decide),
    by decide⟩

/-- Claim C10: a numeric month `m` outside `1..12` is not rejected but
normalized by the underlying date arithmetic: the range is that of calendar
month `(m - 1) mod 12 + 1` of year `y + (m - 1) / 12` (floor division), and
the invariants still hold that the start is day 1 at local midnight and the
end is exactly one calendar month later. -/
theorem getMonthRange_normalizes (now : JsDate) (s : String) (y m : Int)
    (hp : (splitDash s.data).map jsNumber = [some y, some m])
    (hm : m < 1 ∨ 12 < m) :
    getMonthRangeStr now s
      = some (getMonthRange now
          (some (y + (m - 1) / 12, (m - 1) % 12 + 1))) ∧
    1 ≤ (m - 1) % 12 + 1 ∧ (m - 1) % 12 + 1 ≤ 12 ∧
    (getMonthRange now (some (y, m))).1.day = 1 ∧
    (getMonthRange now (some (y, m))).1.msOfDay = 0 ∧
    (getMonthRange now (some (y, m))).2.day = 1 ∧
    (getMonthRange now (some (y, m))).2.msOfDay = 0 ∧
    (getMonthRange now (some (y, m))).2.year * 12
        + (getMonthRange now (some (y, m))).2.month0
      = (getMonthRange now (some (y, m))).1.year * 12
        + (getMonthRange now (some (y, m))).1.month0 + 1 := by
  have hstr : getMonthRangeStr now s
      = some (getMonthRange now (some (y, m))) := by
    unfold getMonthRangeStr
    rw [hp]
  rw [hstr]
  simp only [getMonthRange, jsNewDate, JsDate.setMonth, Option.some.injEq,
    Prod.mk.injEq, JsDate.mk.injEq, true_and, and_true]
  omega

/-- Witness for C10 at the month string `"2024-13"`, which yields the same
range as `"2025-01"`. -/
theorem getMonthRange_normalizes_witness :
    getMonthRangeStr ⟨2024, 0, 2, 0⟩ "2024-13"
      = some (getMonthRange ⟨2024, 0, 2, 0⟩ (some (2025, 1))) := by
  have h := (getMonthRange_normalizes ⟨2024, 0, 2, 0⟩ "2024-13" 2024 13
    (by decide) (Or.inr (by decide))).1
  exact h

/-- Claim C6: the sector-month listing consists of exactly the stored
records whose sector equals the given string and whose date lies in
`[start, end)`, sorted by date descending, and is the empty list (a 200
response, not an error) when nothing matches. -/
theorem sector_listing_correct (db : List Record) (now : JsDate)
    (sector : String) (month : Option (Int × Int)) :
    (sectorSpends db now sector month).Perm
        (db.filter fun r =>
          r.sector == sector &&
            inRange (getMonthRange now month).1 (getMonthRange now month).2
              r.date) ∧
    List.Sorted byDateDesc (sectorSpends db now sector month) ∧
    (∀ r : Record, r ∈ sectorSpends db now sector month ↔
        r ∈ db ∧ r.sector = sector ∧
          inRange (getMonthRange now month).1 (getMonthRange now month).2 r.date
            = true) ∧
    ((db.filter fun r =>
        r.sector == sector &&
          inRange (getMonthRange now month).1 (getMonthRange now month).2
            r.date) = [] →
      sectorSpends db now sector month = []) := by
  have hperm : (sectorSpends db now sector month).Perm
      (db.filter fun r =>
        r.sector == sector &&
          inRange (getMonthRange now month).1 (getMonthRange now month).2
            r.date) := by
    simp only [sectorSpends]
    exact List.perm_insertionSort _ _
  refine ⟨hperm, ?_, ?_, ?_⟩
  · simp only [sectorSpends]
    exact List.sorted_insertionSort _ _
  · intro r
    rw [hperm.mem_iff, List.mem_filter, Bool.and_eq_true, beq_iff_eq]
  · intro h
    rw [h] at hperm
    exact hperm.eq_nil

/-- Witness for C6 at a concrete store, sector and month. -/
theorem sector_listing_correct_witness :
    ∀ r : Record,
      r ∈ sectorSpends
          [{ id := 1, name := "Coffee", sector := "Food", amount := 4,
             note := "", date := ⟨2024, 1, 10, 0⟩ }] ⟨2024, 0, 2, 0⟩ "Food"
          (some (2024, 2)) ↔
        r ∈ [({ id := 1, name := "Coffee", sector := "Food", amount := 4,
                note := "", date := ⟨2024, 1, 10, 0⟩ } : Record)] ∧
          r.sector = "Food" ∧
          inRange (getMonthRange ⟨2024, 0, 2, 0⟩ (some (2024, 2))).1
            (getMonthRange ⟨2024, 0, 2, 0⟩ (some (2024, 2))).2 r.date = true :=
  (sector_listing_correct _ _ _ _).2.2.1

/-- Deleting the document that `find?` locates leaves no document with that
identifier behind, provided the stored identifiers are distinct (Mongo
`_id`s are unique). -/
theorem find?_eraseP_eq_none (db : List Record) (i : Nat)
    (h : (db.map Record.id).Nodup) :
    ((db.eraseP fun r => r.id == i).find? fun r => r.id == i) = none := by
  induction db with
  | nil => rfl
  | cons a t ih =>
    rw [List.map_cons, List.nodup_cons] at h
    cases ha : a.id == i with
    | true =>
      simp only [List.eraseP_cons, ha, cond_true, List.find?_eq_none]
      intro x hx hpx
      have hax : a.id = x.id := by
        have h1 : a.id = i := by simpa using ha
        have h2 : x.id = i := by simpa using hpx
        omega
      exact h.1 (hax ▸ List.mem_map_of_mem Record.id hx)
    | false =>
      simp only [List.eraseP_cons, ha, cond_false]
      rw [List.find?_cons_of_neg _ (by simp [ha])]
      exact ih h.2

/-- Claim C7: when no stored record has the identifier, delete answers 404
and leaves the collection unchanged; when one does, delete answers the
`{ ok: true }` acknowledgement and a subsequent get of the same identifier
answers 404.  The hypothesis that stored identifiers are distinct reflects
the uniqueness of Mongo `_id`s. -/
theorem delete_by_id_correct (db : List Record) (i : Nat)
    (h : (db.map Record.id).Nodup) :
    (findById db i = none → deleteSpend db i = (IdResp.notFound, db)) ∧
    (∀ r, findById db i = some r →
      (deleteSpend db i).1 = IdResp.okAck ∧
      getSpend (deleteSpend db i).2 i = IdResp.notFound) := by
  constructor
  · intro hn
    unfold findById at hn
    simp [deleteSpend, findByIdAndDelete, hn]
  · intro r hr
    unfold findById at hr
    have hnone := find?_eraseP_eq_none db i h
    constructor
    · simp [deleteSpend, findByIdAndDelete, hr]
    · simp [deleteSpend, findByIdAndDelete, hr, getSpend, findById, hnone]

/-- Witness for C7: deleting the only record of a one-record store
acknowledges and a subsequent get answers 404. -/
theorem delete_by_id_correct_witness :
    (deleteSpend
        [{ id := 1, name := "Coffee", sector := "Food", amount := 4,
           note := "", date := ⟨2024, 1, 10, 0⟩ }] 1).1 = IdResp.okAck ∧
    getSpend
      (deleteSpend
        [{ id := 1, name := "Coffee", sector := "Food", amount := 4,
           note := "", date := ⟨2024, 1, 10, 0⟩ }] 1).2 1 = IdResp.notFound :=
  (delete_by_id_correct _ 1 (by decide)).2 _ rfl

/-- Counterexample to claim C4 as stated: providing the falsy date value
`0` (the JSON number zero, which denotes the epoch under `new Date(0)`)
does not persist the parsed value — the handler persists the current
timestamp instead, because `date ? new Date(date) : new Date()` tests
truthiness.  Here now is 2024-01-02 local midnight, distinct from the
epoch. -/
theorem create_date_falsy_counterexample :
    (postSpend
        { name := some "Coffee", sector := some "Food", amount := some 4,
          note := none,
          date := some { val := ⟨1970, 0, 1, 0⟩, falsy := true } }
        ⟨2024, 0, 2, 0⟩ 1 []).1
      = CreateResp.created
          { id := 1, name := "Coffee", sector := "Food", amount := 4,
            note := "", date := ⟨2024, 0, 2, 0⟩ } ∧
    (⟨2024, 0, 2, 0⟩ : JsDate) ≠ (⟨1970, 0, 1, 0⟩ : JsDate) := by
  constructor
  · rfl
  · decide

/-- Claim C4 as amended: the persisted record's date equals the current
timestamp when the date value is omitted or falsy (e.g. the number `0` or
the empty string), and otherwise equals the result of parsing the given
date value. -/
theorem create_date_default_amended (body : CreateBody) (now : JsDate)
    (newId : Nat) (db : List Record) (doc : Record) (db2 : List Record)
    (h : postSpend body now newId db = (CreateResp.created doc, db2)) :
    doc.date =
      match body.date with
      | none => now
      | some d => if d.falsy then now else d.val := by
  unfold postSpend at h
  by_cases hc : (strFalsy body.name || strFalsy body.sector
      || body.amount.isNone) = true
  · rw [if_pos hc] at h
    exact absurd (congrArg Prod.fst h) (by simp)
  · rw [if_neg hc] at h
    simp only [Prod.mk.injEq, CreateResp.created.injEq] at h
    rw [← h.1]

/-- Witness for the amended C4: with a provided falsy date value the
persisted date is the current timestamp. -/
theorem create_date_default_amended_witness :
    ({ id := 1, name := "Coffee", sector := "Food", amount := 4, note := "",
       date := ⟨2024, 0, 2, 0⟩ } : Record).date = (⟨2024, 0, 2, 0⟩ : JsDate) :=
  create_date_default_amended
    { name := some "Coffee", sector := some "Food", amount := some 4,
      note := none, date := some { val := ⟨1970, 0, 1, 0⟩, falsy := true } }
    ⟨2024, 0, 2, 0⟩ 1 []
    { id := 1, name := "Coffee", sector := "Food", amount := 4, note := "",
      date := ⟨2024, 0, 2, 0⟩ }
    [{ id := 1, name := "Coffee", sector := "Food", amount := 4, note := "",
       date := ⟨2024, 0, 2, 0⟩ }] rfl

end Edolog
